import Mathlib

/-!
Verification of the ObsidianRAG pipeline (src/RAG_init.py): a shallow
embedding of the document loader, embedding index, prompt assembly,
retrieval chain, response formatter, and the interactive query loop,
together with theorems settling the specified properties.

File contents are modelled as `Except String String`: `.ok txt` is a
readable file with text `txt`, `.error e` a file whose read raises an
exception with message `e`. Embedding vectors are lists of integers
(opaque numeric entries compared only through the similarity score);
the embedding provider and the language model are parameters that may
fail (`Except`), mirroring the external OpenAI calls.
-/

/-- One ingested document: text content plus its source path
(langchain `Document` with `page_content` and `metadata["source"]`). -/
structure Document where
  content : String
  source_path : String
deriving DecidableEq, Repr

/-- Result dict of the RetrievalQA chain: keys `query`, `result`,
`source_documents` (the chain is built with return_source_documents=True). -/
structure ChainResponse where
  query : String
  result : String
  source_documents : List Document
deriving DecidableEq, Repr

/-- Message role in a chat prompt. -/
inductive Role where
  | system : Role
  | user : Role
deriving DecidableEq, Repr

/-- Errors out of `load_and_embed_markdown`: the `ValueError` raised when no
markdown files were found, or an error propagated from vectorstore creation. -/
inductive LoadError where
  | noMarkdown : LoadError
  | vectorstoreError : String → LoadError
deriving DecidableEq, Repr

instance {ε α : Type} [DecidableEq ε] [DecidableEq α] : DecidableEq (Except ε α) := fun a b =>
  match a, b with
  | .ok x, .ok y =>
    if h : x = y then isTrue (by rw [h]) else isFalse (by intro hc; cases hc; exact h rfl)
  | .error x, .error y =>
    if h : x = y then isTrue (by rw [h]) else isFalse (by intro hc; cases hc; exact h rfl)
  | .ok _, .error _ => isFalse (by intro hc; cases hc)
  | .error _, .ok _ => isFalse (by intro hc; cases hc)

mutual
/-- Directory tree: the files directly in the directory (name paired with
the outcome of reading it) and the named subdirectories. -/
inductive FSTree : Type where
  | node : List (String × Except String String) → DirList → FSTree
/-- List of named subdirectories of a directory. -/
inductive DirList : Type where
  | nil : DirList
  | cons : String → FSTree → DirList → DirList
end

/-- Path join, `os.path.join(root, filename)`. -/
def joinPath (root filename : String) : String := root ++ "/" ++ filename

mutual
/-- Embeds `os.walk(dir)` (top-down): yields `(root, files)` for the root
directory first, then for each subdirectory recursively. -/
def walk (path : String) : FSTree → List (String × List (String × Except String String))
  | .node files dirs => (path, files) :: walkDirs path dirs
/-- Walks each subdirectory in order, concatenating the results. -/
def walkDirs (path : String) : DirList → List (String × List (String × Except String String))
  | .nil => []
  | .cons name t rest => walk (joinPath path name) t ++ walkDirs path rest
end

/-- Modelled from the spec: `os.walk` on a nonexistent or unreadable root
directory silently yields nothing (its default `onerror=None` swallows the
error); `none` stands for such a directory path. -/
def walkTop : Option FSTree → String → List (String × List (String × Except String String))
  | none, _ => []
  | some t, dir => walk dir t

/-- Suffix test on strings, character-exact (Python `str.endswith`). -/
def hasSuffix (s suffix : String) : Bool := suffix.data.isSuffixOf s.data

/-- Inner loop of `load_and_embed_markdown` over the files of one `root`:
keeps a file only if its name ends with ".md", then tries to load it;
a read failure is caught, printed ("Error loading file ...") and the file
skipped. Returns (documents, printed error lines), each in iteration order. -/
def loadFiles (root : String) : List (String × Except String String) → List Document × List String
  | [] => ([], [])
  | (filename, readResult) :: rest =>
    let acc := loadFiles root rest
    if hasSuffix filename ".md" then
      match readResult with
      | .ok txt => (⟨txt, joinPath root filename⟩ :: acc.1, acc.2)
      | .error e =>
        (acc.1, ("Error loading file " ++ joinPath root filename ++ ": " ++ e) :: acc.2)
    else acc

/-- Outer loop of `load_and_embed_markdown` over `os.walk` output,
extending the accumulated `docs` (and error prints) per directory. -/
def loadWalk : List (String × List (String × Except String String)) → List Document × List String
  | [] => ([], [])
  | (root, files) :: rest =>
    let a := loadFiles root files
    let b := loadWalk rest
    (a.1 ++ b.1, a.2 ++ b.2)

/-- Embeds `FAISS.from_documents(docs, embeddings)`: one provider call per
document; any provider failure fails the whole build (first failure wins,
matching a raised exception aborting the batch). The store keeps
(vector, document) pairs in insertion order. -/
def buildVectorstore (docs : List Document)
    (provider : String → Except String (List ℤ)) :
    Except String (List (List ℤ × Document)) :=
  docs.mapM fun d => (provider d.content).map fun v => (v, d)

/-- Embeds `load_and_embed_markdown(directory_path)`: walk the tree, load
eligible files (per-file failures printed and skipped), raise
`ValueError` when no documents were collected, then build the FAISS
vectorstore, printing and re-raising any error from that step.
Returns (printed lines, result). -/
def load_and_embed_markdown (fs : Option FSTree) (dir : String)
    (provider : String → Except String (List ℤ)) :
    List String × Except LoadError (List (List ℤ × Document)) :=
  let r := loadWalk (walkTop fs dir)
  if r.1.isEmpty then
    (r.2, .error .noMarkdown)
  else
    match buildVectorstore r.1 provider with
    | .ok vs => (r.2, .ok vs)
    | .error e => (r.2 ++ ["Error creating vectorstore: " ++ e], .error (.vectorstoreError e))

/-- Message of the `ValueError` in `load_and_embed_markdown`, and the error
text the main script prints for each load failure. -/
def loadErrorMsg : LoadError → String
  | .noMarkdown => "No markdown files were found. Ensure the directory contains valid .md files."
  | .vectorstoreError e => e

/-- The `system_template` literal of the source, placeholder included. -/
def system_template : String :=
  "The files returned in this rag pipeline are markdown files from an obsidian template. \nItems are formatted in a to do list. For example:\n    -[ ] means that a task need to be done\n    -[x] means that the task has been completed. \n    \nWhen asking about to do items, please ignore completed tasks, and only return uncompleted tasks.  \n----------------\n{context}"

/-- The fixed instruction part of `system_template`: everything before the
`{context}` placeholder (task-list semantics plus the boundary line). -/
def system_instruction : String :=
  "The files returned in this rag pipeline are markdown files from an obsidian template. \nItems are formatted in a to do list. For example:\n    -[ ] means that a task need to be done\n    -[x] means that the task has been completed. \n    \nWhen asking about to do items, please ignore completed tasks, and only return uncompleted tasks.  \n----------------\n"

/-- The `human_template` literal of the source. -/
def human_template : String := "{question}"

/-- Modelled from the spec: the "stuff" document chain joins the retrieved
documents' raw texts, untruncated, with a blank-line boundary marker
between consecutive documents (langchain's document separator). -/
def stuffContext : List Document → String
  | [] => ""
  | [d] => d.content
  | d :: rest => d.content ++ "\n\n" ++ stuffContext rest

/-- Instantiation of `chat_prompt` (system template + human template):
filling the single trailing `{context}` placeholder of the system template
yields the fixed instruction followed by the context, and filling
`{question}` yields the question verbatim. -/
def assemble (instruction : String) (docs : List Document) (question : String) :
    List (Role × String) :=
  [(Role.system, instruction ++ stuffContext docs), (Role.user, question)]

/-- The chat prompt the chain sends: `assemble` at the source's fixed
system instruction. -/
def chatPromptMessages (docs : List Document) (question : String) : List (Role × String) :=
  assemble system_instruction docs question

/-- Embeds `format_response(response)`: the f-string
"Response: {response['result']}\n". -/
def format_response (response : ChainResponse) : String :=
  "Response: " ++ response.result ++ "\n"

/-- One stored index entry tagged with its insertion position and its
similarity score for the current query. -/
structure Scored where
  idx : Nat
  score : ℤ
  doc : Document
deriving DecidableEq, Repr

/-- Inner product of two embedding vectors. -/
def dot (v w : List ℤ) : ℤ := ((v.zip w).map fun p => p.1 * p.2).sum

/-- Retrieval order: higher similarity score first; on equal scores the
earlier-inserted entry first (deterministic tie-break). -/
def scoreRel (a b : Scored) : Prop :=
  b.score < a.score ∨ (a.score = b.score ∧ a.idx ≤ b.idx)

instance : DecidableRel scoreRel := fun a b => by
  unfold scoreRel; exact inferInstance

instance : IsTotal Scored scoreRel where
  total a b := by
    rcases lt_trichotomy a.score b.score with h | h | h
    · exact Or.inr (Or.inl h)
    · rcases Nat.le_total a.idx b.idx with hi | hi
      · exact Or.inl (Or.inr ⟨h, hi⟩)
      · exact Or.inr (Or.inr ⟨h.symm, hi⟩)
    · exact Or.inl (Or.inl h)

instance : IsTrans Scored scoreRel where
  trans a b c hab hbc := by
    rcases hab with h1 | ⟨e1, i1⟩
    · rcases hbc with h2 | ⟨e2, _⟩
      · exact Or.inl (h2.trans h1)
      · exact Or.inl (e2 ▸ h1)
    · rcases hbc with h2 | ⟨e2, i2⟩
      · exact Or.inl (by rw [e1]; exact h2)
      · exact Or.inr ⟨e1.trans e2, i1.trans i2⟩

/-- Scores every stored (vector, document) pair against the query vector,
tagging each with its insertion position (starting at `i`). -/
def scoredFrom (qv : List ℤ) : List (List ℤ × Document) → Nat → List Scored
  | [], _ => []
  | (v, d) :: rest, i => ⟨i, dot v qv, d⟩ :: scoredFrom qv rest (i + 1)

/-- Modelled from the spec: exact top-K similarity retrieval of the FAISS
index — score every stored vector against the query vector, order by
descending score with ties broken by insertion position, keep the first
`k`, positions retained. -/
def searchRanked (store : List (List ℤ × Document)) (qv : List ℤ) (k : Nat) : List Scored :=
  (List.insertionSort scoreRel (scoredFrom qv store 0)).take k

/-- Modelled from the spec: `search(q, k)` as seen by the chain — the top-K
documents with their similarity scores. -/
def similarity_search (store : List (List ℤ × Document)) (qv : List ℤ) (k : Nat) :
    List (Document × ℤ) :=
  (searchRanked store qv k).map fun s => (s.doc, s.score)

/-- The `k` configured by `setup_rag_chain` (search_kwargs k = 5). -/
def search_kwargs_k : Nat := 5

/-- Embeds one `chain.invoke({"query": q})` of the RetrievalQA chain built
by `setup_rag_chain`: embed the query (may fail), retrieve the top 5
documents, assemble the chat prompt, call the language model (may fail),
and package the answer with its source documents. -/
def runChain (provider : String → Except String (List ℤ))
    (llm : List (Role × String) → Except String String)
    (store : List (List ℤ × Document)) (q : String) : Except String ChainResponse :=
  match provider q with
  | .error e => .error e
  | .ok qv =>
    let retrieved := similarity_search store qv search_kwargs_k
    let docs := retrieved.map Prod.fst
    match llm (chatPromptMessages docs q) with
    | .error e => .error e
    | .ok ans => .ok ⟨q, ans, docs⟩

/-- Embeds `execute_query(chain, query)`: any exception from the chain is
caught, a message printed, and `None` returned; otherwise the formatted
response is returned. Result is (returned value, printed lines). -/
def execute_query (chain : String → Except String ChainResponse) (query : String) :
    Option String × List String :=
  match chain query with
  | .ok response => (some (format_response response), [])
  | .error e => (none, ["Error executing query: " ++ e])

/-- Lower-casing of a string, character by character (Python `str.lower`
on the ASCII commands the loop compares against). -/
def strLower (s : String) : String := ⟨s.data.map Char.toLower⟩

/-- The loop's exit test: `query.lower() in ["exit", "quit"]`. -/
def isExitCmd (q : String) : Bool := strLower q == "exit" || strLower q == "quit"

/-- Embeds the interactive query loop of the main script over a list of
input lines: stop (printing "Goodbye!") on exit/quit, otherwise run
`execute_query` and print its response when there is one; the loop always
continues to the next input. Returns all printed lines. -/
def queryLoop (chain : String → Except String ChainResponse) : List String → List String
  | [] => []
  | q :: rest =>
    if isExitCmd q then ["Goodbye!"]
    else
      match execute_query chain q with
      | (some r, printed) => (printed ++ [r]) ++ queryLoop chain rest
      | (none, printed) => printed ++ queryLoop chain rest

/-- Outcome of one run of the main script: every printed line, in order,
and the process exit code. -/
structure RunResult where
  outputs : List String
  exitCode : Nat
deriving DecidableEq, Repr

/-- Embeds the `__main__` script: load and embed the markdown directory
(exit 1 on failure, before any query is served), set up the chain, then
run the query loop over the input lines. -/
def mainRun (fs : Option FSTree) (dir : String)
    (provider : String → Except String (List ℤ))
    (llm : List (Role × String) → Except String String)
    (queries : List String) : RunResult :=
  let r := load_and_embed_markdown fs dir provider
  match r.2 with
  | .error e =>
    ⟨"Embedding markdown notes..." :: (r.1 ++ ["Failed to embed markdown notes: " ++ loadErrorMsg e]), 1⟩
  | .ok store =>
    ⟨"Embedding markdown notes..."
      :: (r.1 ++ ["Setting up retrieval-augmented QA (RAG)...",
                  "Ready to query your notes! Type 'exit' or 'quit' to stop."]
          ++ queryLoop (runChain provider llm store) queries), 0⟩

/-- Specification-style view of one directory entry: the document the
loader yields for it — present exactly when the filename ends with ".md"
and the read succeeds, carrying the file text and the joined path. -/
def docOfFile (root : String) (f : String × Except String String) : Option Document :=
  if hasSuffix f.1 ".md" then f.2.toOption.map fun txt => ⟨txt, joinPath root f.1⟩ else none

/-- Specification-style view of one directory entry: the error line the
loader prints for it — present exactly when the filename ends with ".md"
and the read fails. -/
def logOfFile (root : String) (f : String × Except String String) : Option String :=
  match f.2 with
  | .ok _ => none
  | .error e =>
    if hasSuffix f.1 ".md" then some ("Error loading file " ++ joinPath root f.1 ++ ": " ++ e)
    else none

mutual
/-- Direct recursive collection of the documents of a tree: the eligible
readable files of the directory itself, then those of each subdirectory in
order — the specification of what a recursive visit must return. -/
def treeDocs (path : String) : FSTree → List Document
  | .node files dirs => files.filterMap (docOfFile path) ++ dirsDocs path dirs
/-- Documents of a list of subdirectories, in order. -/
def dirsDocs (path : String) : DirList → List Document
  | .nil => []
  | .cons name t rest => treeDocs (joinPath path name) t ++ dirsDocs path rest
end

mutual
/-- The same tree with every unreadable file removed (used to state that
unreadable files change nothing but the skipped entries). -/
def pruneUnreadable : FSTree → FSTree
  | .node files dirs => .node (files.filter fun f => f.2.toOption.isSome) (pruneDirs dirs)
/-- Prunes each subdirectory. -/
def pruneDirs : DirList → DirList
  | .nil => .nil
  | .cons name t rest => .cons name (pruneUnreadable t) (pruneDirs rest)
end

/-- Concrete fixture: a pending-task note. -/
def docA : Document := ⟨"- [ ] buy milk", "vault/a.md"⟩

/-- Concrete fixture: a completed-task note. -/
def docB : Document := ⟨"- [x] call mom", "vault/sub/b.md"⟩

/-- Concrete fixture: an empty directory. -/
def treeEmpty : FSTree := .node [] .nil

/-- Concrete fixture: a vault with a markdown file at the root, one in a
subdirectory, and a non-markdown file that must be skipped. -/
def treeGood : FSTree :=
  .node [("a.md", .ok "- [ ] buy milk")]
    (.cons "sub" (.node [("b.md", .ok "- [x] call mom"), ("notes.txt", .ok "ineligible")] .nil)
      .nil)

/-- Concrete fixture: a vault with a readable markdown file, an unreadable
markdown file, and an ineligible file. -/
def treeMixed : FSTree :=
  .node [("a.md", .ok "alpha"), ("bad.md", .error "Permission denied"), ("c.txt", .ok "nope")]
    .nil

/-- Concrete fixture: an embedding provider that always succeeds. -/
def providerOne : String → Except String (List ℤ) := fun _ => .ok [1]

/-- Concrete fixture: an embedding provider that is unreachable. -/
def providerDown : String → Except String (List ℤ) := fun _ => .error "provider unreachable"

/-- Concrete fixture: an embedding provider that fails only on the query
text "bad" (build succeeds, one query fails). -/
def providerQueryFail : String → Except String (List ℤ) :=
  fun q => if q == "bad" then .error "boom" else .ok [1]

/-- Concrete fixture: a language model stub that always answers. -/
def llmOk : List (Role × String) → Except String String := fun _ => .ok "the answer"

/-- Concrete fixture: a two-document vectorstore in insertion order. -/
def storeTwo : List (List ℤ × Document) := [([2], docA), ([1], docB)]

theorem loadFiles_fst (root : String) (files : List (String × Except String String)) :
    (loadFiles root files).1 = files.filterMap (docOfFile root) := by
  induction files with
  | nil => rfl
  | cons f rest ih =>
    obtain ⟨filename, readResult⟩ := f
    cases h : hasSuffix filename ".md" <;> cases readResult <;>
      simp [loadFiles, docOfFile, h, ih, Except.toOption]

theorem loadFiles_snd (root : String) (files : List (String × Except String String)) :
    (loadFiles root files).2 = files.filterMap (logOfFile root) := by
  induction files with
  | nil => rfl
  | cons f rest ih =>
    obtain ⟨filename, readResult⟩ := f
    cases h : hasSuffix filename ".md" <;> cases readResult <;>
      simp [loadFiles, logOfFile, h, ih]

theorem loadWalk_fst (w : List (String × List (String × Except String String))) :
    (loadWalk w).1 = w.flatMap fun rf => rf.2.filterMap (docOfFile rf.1) := by
  induction w with
  | nil => rfl
  | cons rf rest ih =>
    obtain ⟨root, files⟩ := rf
    simp [loadWalk, loadFiles_fst, ih]

theorem loadWalk_snd (w : List (String × List (String × Except String String))) :
    (loadWalk w).2 = w.flatMap fun rf => rf.2.filterMap (logOfFile rf.1) := by
  induction w with
  | nil => rfl
  | cons rf rest ih =>
    obtain ⟨root, files⟩ := rf
    simp [loadWalk, loadFiles_snd, ih]

theorem loadWalk_append (w₁ w₂ : List (String × List (String × Except String String))) :
    loadWalk (w₁ ++ w₂) =
      ((loadWalk w₁).1 ++ (loadWalk w₂).1, (loadWalk w₁).2 ++ (loadWalk w₂).2) := by
  induction w₁ with
  | nil => simp [loadWalk]
  | cons rf rest ih =>
    obtain ⟨root, files⟩ := rf
    simp [loadWalk, ih]

mutual
theorem walk_docs_eq (dir : String) (t : FSTree) :
    (loadWalk (walk dir t)).1 = treeDocs dir t := by
  cases t with
  | node files dirs =>
    show (loadWalk ((dir, files) :: walkDirs dir dirs)).1 = _
    simp [loadWalk, treeDocs, loadFiles_fst, walkDirs_docs_eq dir dirs]
theorem walkDirs_docs_eq (dir : String) (ds : DirList) :
    (loadWalk (walkDirs dir ds)).1 = dirsDocs dir ds := by
  cases ds with
  | nil => rfl
  | cons name t rest =>
    show (loadWalk (walk (joinPath dir name) t ++ walkDirs dir rest)).1 = _
    rw [loadWalk_append]
    simp [dirsDocs, walk_docs_eq (joinPath dir name) t, walkDirs_docs_eq dir rest]
end

theorem docOfFile_eq_none (root : String) (f : String × Except String String) :
    docOfFile root f = none ↔
      ¬(hasSuffix f.1 ".md" = true ∧ f.2.toOption.isSome = true) := by
  obtain ⟨n, c⟩ := f
  cases h : hasSuffix n ".md" <;> cases c <;> simp [docOfFile, h, Except.toOption]

theorem docOfFile_filter_readable (root : String)
    (files : List (String × Except String String)) :
    (files.filter fun f => f.2.toOption.isSome).filterMap (docOfFile root) =
      files.filterMap (docOfFile root) := by
  induction files with
  | nil => rfl
  | cons f rest ih =>
    obtain ⟨n, c⟩ := f
    cases c with
    | error e =>
      have hdoc : docOfFile root ((n, Except.error e) : String × Except String String) = none := by
        simp [docOfFile, Except.toOption]
      simp only [List.filter_cons, List.filterMap_cons, hdoc,
        show (((n, Except.error e) : String × Except String String).2.toOption.isSome) = false
          from rfl]
      simpa using ih
    | ok txt =>
      simp only [List.filter_cons,
        show (((n, Except.ok txt) : String × Except String String).2.toOption.isSome) = true
          from rfl, if_true, List.filterMap_cons]
      rw [ih]

mutual
theorem treeDocs_prune (dir : String) (t : FSTree) :
    treeDocs dir (pruneUnreadable t) = treeDocs dir t := by
  cases t with
  | node files dirs =>
    show treeDocs dir (.node (files.filter fun f => f.2.toOption.isSome) (pruneDirs dirs)) = _
    simp [treeDocs, docOfFile_filter_readable, dirsDocs_prune dir dirs]
theorem dirsDocs_prune (dir : String) (ds : DirList) :
    dirsDocs dir (pruneDirs ds) = dirsDocs dir ds := by
  cases ds with
  | nil => rfl
  | cons name t rest =>
    show dirsDocs dir (.cons name (pruneUnreadable t) (pruneDirs rest)) = _
    simp [dirsDocs, treeDocs_prune (joinPath dir name) t, dirsDocs_prune dir rest]
end

/-- C2: a directory yielding zero eligible documents makes
`load_and_embed_markdown` fail with the no-markdown `ValueError` (for every
provider, so no index is ever built there), a directory yielding at least
one eligible document never produces that error, and yielding zero
documents is exactly the absence of any readable file whose name ends in
".md" anywhere in the walk. -/
theorem load_ingestion_error_iff (fs : Option FSTree) (dir : String)
    (provider : String → Except String (List ℤ)) :
    ((loadWalk (walkTop fs dir)).1 = [] →
      load_and_embed_markdown fs dir provider =
        ((loadWalk (walkTop fs dir)).2, .error .noMarkdown)) ∧
    ((loadWalk (walkTop fs dir)).1 ≠ [] →
      (load_and_embed_markdown fs dir provider).2 ≠ .error .noMarkdown) ∧
    ((loadWalk (walkTop fs dir)).1 = [] ↔
      ∀ root files, (root, files) ∈ walkTop fs dir →
        ∀ fname c, (fname, c) ∈ files →
          ¬(hasSuffix fname ".md" = true ∧ c.toOption.isSome = true)) := by
  refine ⟨?_, ?_, ?_⟩
  · intro h
    simp [load_and_embed_markdown, h]
  · intro h
    simp only [load_and_embed_markdown]
    rw [if_neg (by simpa [List.isEmpty_iff] using h)]
    cases hb : buildVectorstore (loadWalk (walkTop fs dir)).1 provider <;> simp
  · rw [loadWalk_fst, List.flatMap_eq_nil_iff]
    constructor
    · intro H root files hin fname c hf
      rw [← docOfFile_eq_none root (fname, c)]
      exact List.filterMap_eq_nil_iff.mp (H (root, files) hin) (fname, c) hf
    · intro H rf hin
      rw [List.filterMap_eq_nil_iff]
      intro f hf
      rw [docOfFile_eq_none]
      exact H rf.1 rf.2 hin f.1 f.2 hf

/-- Witness for C2 at concrete directories: the empty vault fails with the
no-markdown error, a vault with one markdown file does not. -/
theorem load_ingestion_error_iff_witness :
    load_and_embed_markdown (some treeEmpty) "vault" providerOne =
      ((loadWalk (walkTop (some treeEmpty) "vault")).2, .error .noMarkdown) ∧
    (load_and_embed_markdown (some treeGood) "vault" providerOne).2 ≠
      .error .noMarkdown :=
  ⟨(load_ingestion_error_iff (some treeEmpty) "vault" providerOne).1 (by decide),
   (load_ingestion_error_iff (some treeGood) "vault" providerOne).2.1 (by decide)⟩

/-- C4 counterexample: `format_response` does not return the answer text
modified only by the prefix "Response: " — on the empty answer it returns
"Response: \n", not "Response: " (a trailing newline is appended). -/
theorem format_response_not_bare_concat :
    format_response ⟨"q", "", []⟩ ≠ "Response: " ++ (ChainResponse.mk "q" "" []).result := by
  decide

/-- C4 amended: `format_response` returns the answer text unmodified except
for the prefix "Response: " and a trailing newline; it is a total pure
function, and an empty answer yields exactly the prefix and the newline. -/
theorem format_response_formats (response : ChainResponse) :
    format_response response = "Response: " ++ response.result ++ "\n" ∧
    (format_response response).data =
      "Response: ".data ++ response.result.data ++ "\n".data ∧
    format_response ⟨response.query, "", response.source_documents⟩ = "Response: \n" := by
  refine ⟨rfl, ?_, by simp [format_response]⟩
  simp [format_response, String.data_append]

/-- C9: a nonexistent (or unreadable) vault directory is indistinguishable
from an empty one — `os.walk` yields nothing, so `load_and_embed_markdown`
raises the same no-markdown `ValueError`, not a distinct filesystem error. -/
theorem missing_dir_equals_empty_dir (dir dir' : String)
    (provider provider' : String → Except String (List ℤ)) :
    load_and_embed_markdown none dir provider = ([], .error .noMarkdown) ∧
    load_and_embed_markdown (some treeEmpty) dir' provider' = ([], .error .noMarkdown) ∧
    (load_and_embed_markdown none dir provider).2 =
      (load_and_embed_markdown (some treeEmpty) dir' provider').2 := by
  exact ⟨rfl, rfl, rfl⟩

/-- C10: the output of `format_response` depends only on the 'result'
field — responses agreeing on the answer text format identically, whatever
their query and source documents. -/
theorem format_depends_only_on_result (r₁ r₂ : ChainResponse)
    (h : r₁.result = r₂.result) :
    format_response r₁ = format_response r₂ := by
  simp [format_response, h]

/-- Witness for C10: two responses with the same answer but different
queries and source documents format identically. -/
theorem format_depends_only_on_result_witness :
    format_response ⟨"q1", "same answer", [⟨"secret note", "vault/s.md"⟩]⟩ =
      format_response ⟨"q2", "same answer", []⟩ :=
  format_depends_only_on_result _ _ (by decide)

theorem docOfFile_eq_some (root : String) (f : String × Except String String) (d : Document) :
    docOfFile root f = some d ↔
      hasSuffix f.1 ".md" = true ∧ f.2 = .ok d.content ∧ d.source_path = joinPath root f.1 := by
  obtain ⟨n, c⟩ := f
  obtain ⟨dc, dp⟩ := d
  cases h : hasSuffix n ".md" <;> cases c <;>
    simp [docOfFile, h, Except.toOption, Document.mk.injEq, and_comm, eq_comm]

theorem logOfFile_eq_some (root : String) (f : String × Except String String) (s : String) :
    logOfFile root f = some s ↔
      hasSuffix f.1 ".md" = true ∧ ∃ e, f.2 = .error e ∧
        s = "Error loading file " ++ joinPath root f.1 ++ ": " ++ e := by
  obtain ⟨n, c⟩ := f
  cases h : hasSuffix n ".md" <;> cases c <;> simp [logOfFile, h, eq_comm]

/-- C6: the loader visits the whole directory tree recursively, treats a
file as eligible exactly when its name ends in ".md", and returns exactly
the eligible readable files' contents with their paths preserved —
eligible readable files all appear, everything returned comes from some
eligible readable file of the walk, the result coincides with the direct
recursive collection `treeDocs`, and a tree with at least one document
never triggers the no-markdown error. -/
theorem load_eligibility_spec (dir : String) (t : FSTree)
    (provider : String → Except String (List ℤ)) :
    (∀ root files, (root, files) ∈ walk dir t →
      ∀ fname txt, (fname, Except.ok txt) ∈ files → hasSuffix fname ".md" = true →
        (⟨txt, joinPath root fname⟩ : Document) ∈ (loadWalk (walk dir t)).1) ∧
    (∀ d, d ∈ (loadWalk (walk dir t)).1 →
      ∃ root files fname, (root, files) ∈ walk dir t ∧
        (fname, Except.ok d.content) ∈ files ∧
        d.source_path = joinPath root fname ∧ hasSuffix fname ".md" = true) ∧
    (loadWalk (walk dir t)).1 = treeDocs dir t ∧
    ((loadWalk (walk dir t)).1 ≠ [] →
      (load_and_embed_markdown (some t) dir provider).2 ≠ .error .noMarkdown) := by
  refine ⟨?_, ?_, walk_docs_eq dir t, ?_⟩
  · intro root files hin fname txt hf hmd
    rw [loadWalk_fst]
    refine List.mem_flatMap.mpr ⟨(root, files), hin, ?_⟩
    refine List.mem_filterMap.mpr ⟨(fname, Except.ok txt), hf, ?_⟩
    rw [docOfFile_eq_some]
    exact ⟨hmd, rfl, rfl⟩
  · intro d hd
    rw [loadWalk_fst] at hd
    obtain ⟨rf, hrf, hmem⟩ := List.mem_flatMap.mp hd
    obtain ⟨f, hf, hdoc⟩ := List.mem_filterMap.mp hmem
    rw [docOfFile_eq_some] at hdoc
    exact ⟨rf.1, rf.2, f.1, hrf, hdoc.2.1 ▸ hf, hdoc.2.2, hdoc.1⟩
  · intro h
    simp only [load_and_embed_markdown, walkTop]
    rw [if_neg (by simpa [List.isEmpty_iff] using h)]
    cases hb : buildVectorstore (loadWalk (walk dir t)).1 provider <;> simp

/-- Witness for C6 at the concrete vault `treeGood`: the root markdown file
and the subdirectory markdown file are both returned (paths preserved), the
text file is skipped, and the result is the recursive collection. -/
theorem load_eligibility_spec_witness :
    (⟨"- [ ] buy milk", joinPath "vault" "a.md"⟩ : Document) ∈
      (loadWalk (walk "vault" treeGood)).1 ∧
    (loadWalk (walk "vault" treeGood)).1 = treeDocs "vault" treeGood ∧
    (load_and_embed_markdown (some treeGood) "vault" providerOne).2 ≠
      .error .noMarkdown :=
  ⟨(load_eligibility_spec "vault" treeGood providerOne).1 "vault"
      [("a.md", .ok "- [ ] buy milk")] (by decide) "a.md" "- [ ] buy milk"
      (by decide) (by decide),
   (load_eligibility_spec "vault" treeGood providerOne).2.2.1,
   (load_eligibility_spec "vault" treeGood providerOne).2.2.2 (by decide)⟩

/-- C5: per-file read failures are isolated — every unreadable eligible
file contributes exactly one printed error line (and nothing else is
printed), every readable eligible file is still returned, the documents
returned are exactly those of the tree with the unreadable files removed,
and a directory still holding at least one document never aborts with the
no-markdown error. -/
theorem load_skips_unreadable (dir : String) (t : FSTree)
    (provider : String → Except String (List ℤ)) :
    (loadWalk (walk dir t)).2 =
      (walk dir t).flatMap (fun rf => rf.2.filterMap (logOfFile rf.1)) ∧
    (∀ root files fname e, (root, files) ∈ walk dir t →
      (fname, Except.error e) ∈ files → hasSuffix fname ".md" = true →
        ("Error loading file " ++ joinPath root fname ++ ": " ++ e) ∈
          (loadWalk (walk dir t)).2) ∧
    (∀ root files fname txt, (root, files) ∈ walk dir t →
      (fname, Except.ok txt) ∈ files → hasSuffix fname ".md" = true →
        (⟨txt, joinPath root fname⟩ : Document) ∈ (loadWalk (walk dir t)).1) ∧
    (loadWalk (walk dir t)).1 = treeDocs dir (pruneUnreadable t) ∧
    ((loadWalk (walk dir t)).1 ≠ [] →
      (load_and_embed_markdown (some t) dir provider).2 ≠ .error .noMarkdown) := by
  refine ⟨loadWalk_snd (walk dir t), ?_, ?_, ?_, ?_⟩
  · intro root files fname e hin hf hmd
    rw [loadWalk_snd]
    refine List.mem_flatMap.mpr ⟨(root, files), hin, ?_⟩
    refine List.mem_filterMap.mpr ⟨(fname, Except.error e), hf, ?_⟩
    rw [logOfFile_eq_some]
    exact ⟨hmd, e, rfl, rfl⟩
  · intro root files fname txt hin hf hmd
    rw [loadWalk_fst]
    refine List.mem_flatMap.mpr ⟨(root, files), hin, ?_⟩
    refine List.mem_filterMap.mpr ⟨(fname, Except.ok txt), hf, ?_⟩
    rw [docOfFile_eq_some]
    exact ⟨hmd, rfl, rfl⟩
  · rw [walk_docs_eq, treeDocs_prune]
  · intro h
    simp only [load_and_embed_markdown, walkTop]
    rw [if_neg (by simpa [List.isEmpty_iff] using h)]
    cases hb : buildVectorstore (loadWalk (walk dir t)).1 provider <;> simp

/-- Witness for C5 at the concrete vault `treeMixed`: the unreadable
markdown file yields a printed error line, the readable one is still
returned, and loading does not abort. -/
theorem load_skips_unreadable_witness :
    ("Error loading file " ++ joinPath "vault" "bad.md" ++ ": " ++ "Permission denied") ∈
      (loadWalk (walk "vault" treeMixed)).2 ∧
    (⟨"alpha", joinPath "vault" "a.md"⟩ : Document) ∈ (loadWalk (walk "vault" treeMixed)).1 ∧
    (load_and_embed_markdown (some treeMixed) "vault" providerOne).2 ≠
      .error .noMarkdown :=
  ⟨(load_skips_unreadable "vault" treeMixed providerOne).2.1 "vault"
      [("a.md", .ok "alpha"), ("bad.md", .error "Permission denied"), ("c.txt", .ok "nope")]
      "bad.md" "Permission denied" (by decide) (by decide) (by decide),
   (load_skips_unreadable "vault" treeMixed providerOne).2.2.1 "vault"
      [("a.md", .ok "alpha"), ("bad.md", .error "Permission denied"), ("c.txt", .ok "nope")]
      "a.md" "alpha" (by decide) (by decide) (by decide),
   (load_skips_unreadable "vault" treeMixed providerOne).2.2.2.2 (by decide)⟩

theorem stuffContext_contains (docs : List Document) (d : Document) (hd : d ∈ docs) :
    ∃ pre post, stuffContext docs = pre ++ d.content ++ post := by
  induction docs with
  | nil => cases hd
  | cons a rest ih =>
    cases hd with
    | head =>
      cases rest with
      | nil => exact ⟨"", "", by simp [stuffContext, String.empty_append, String.append_empty]⟩
      | cons b rest' =>
        exact ⟨"", "\n\n" ++ stuffContext (b :: rest'),
          by simp [stuffContext, String.empty_append, String.append_assoc]⟩
    | tail _ hmem =>
      cases rest with
      | nil => cases hmem
      | cons b rest' =>
        obtain ⟨pre, post, hp⟩ := ih hmem
        exact ⟨a.content ++ "\n\n" ++ pre, post,
          by rw [show stuffContext (a :: b :: rest') = a.content ++ "\n\n" ++ stuffContext (b :: rest') from rfl, hp]; simp [String.append_assoc]⟩

/-- C7: prompt assembly produces exactly a two-role message — the system
role carrying the instruction followed by the concatenated raw text of all
retrieved documents (each appearing untruncated, separated by the
blank-line boundary marker) and the user role carrying the verbatim
question; the source's system template is the fixed instruction followed
by the context placeholder, and assembly is a pure function of its
inputs. -/
theorem chat_prompt_assembly (instruction : String) (docs : List Document) (question : String) :
    assemble instruction docs question =
      [(Role.system, instruction ++ stuffContext docs), (Role.user, question)] ∧
    (assemble instruction docs question).map Prod.fst = [Role.system, Role.user] ∧
    (∀ d ∈ docs, ∃ pre post,
      instruction ++ stuffContext docs = pre ++ d.content ++ post) ∧
    system_template = system_instruction ++ "{context}" ∧
    chatPromptMessages docs question = assemble system_instruction docs question ∧
    (∀ docs' question', docs = docs' → question = question' →
      assemble instruction docs question = assemble instruction docs' question') := by
  refine ⟨rfl, rfl, ?_, by simp [system_template, system_instruction], rfl, ?_⟩
  · intro d hd
    obtain ⟨pre, post, hp⟩ := stuffContext_contains docs d hd
    refine ⟨instruction ++ pre, post, ?_⟩
    rw [hp]
    simp [String.append_assoc]
  · intro docs' question' h1 h2
    rw [h1, h2]

/-- Witness for C7 at concrete inputs: the two-document prompt carries both
notes' full text in the system slot and the question verbatim in the user
slot. -/
theorem chat_prompt_assembly_witness :
    assemble system_instruction [docA, docB] "what do I need to do?" =
      [(Role.system, system_instruction ++ stuffContext [docA, docB]),
       (Role.user, "what do I need to do?")] ∧
    (∃ pre post,
      system_instruction ++ stuffContext [docA, docB] = pre ++ docA.content ++ post) :=
  ⟨(chat_prompt_assembly system_instruction [docA, docB] "what do I need to do?").1,
   (chat_prompt_assembly system_instruction [docA, docB] "what do I need to do?").2.2.1
     docA (by decide)⟩

/-- C3: when any stage of the chain fails (embedding or language model),
the failure is caught at the `execute_query` boundary and surfaced as a
single failure signal (`None`) with a printed human-readable message, the
interactive loop continues past the failing query, and a subsequent valid
query still succeeds; embedding-stage and model-stage failures both
propagate only to that boundary. -/
theorem query_failure_isolated (provider : String → Except String (List ℤ))
    (llm : List (Role × String) → Except String String)
    (store : List (List ℤ × Document)) (q e : String) (rest : List String)
    (hq : isExitCmd q = false)
    (hfail : runChain provider llm store q = .error e) :
    execute_query (runChain provider llm store) q =
      (none, ["Error executing query: " ++ e]) ∧
    queryLoop (runChain provider llm store) (q :: rest) =
      ("Error executing query: " ++ e) :: queryLoop (runChain provider llm store) rest ∧
    (∀ q' r, isExitCmd q' = false → runChain provider llm store q' = .ok r →
      queryLoop (runChain provider llm store) [q, q'] =
        ["Error executing query: " ++ e, format_response r]) ∧
    (∀ e', provider q = .error e' → runChain provider llm store q = .error e') ∧
    (∀ qv ans, provider q = .ok qv →
      llm (chatPromptMessages
        ((similarity_search store qv search_kwargs_k).map Prod.fst) q) = .error ans →
      runChain provider llm store q = .error ans) := by
  have hex : execute_query (runChain provider llm store) q =
      (none, ["Error executing query: " ++ e]) := by
    simp [execute_query, hfail]
  refine ⟨hex, ?_, ?_, ?_, ?_⟩
  · simp [queryLoop, hq, hex]
  · intro q' r hq' hr
    have hex' : execute_query (runChain provider llm store) q' =
        (some (format_response r), []) := by
      simp [execute_query, hr]
    simp [queryLoop, hq, hq', hex, hex']
  · intro e' hp
    simp [runChain, hp]
  · intro qv ans hp hl
    simp [runChain, hp, hl]

/-- Witness for C3: a query failing at the embedding stage yields the
failure signal and message, and the next valid query in the same loop
still gets its formatted answer. -/
theorem query_failure_isolated_witness :
    execute_query (runChain providerQueryFail llmOk storeTwo) "bad" =
      (none, ["Error executing query: " ++ "boom"]) ∧
    queryLoop (runChain providerQueryFail llmOk storeTwo) ["bad", "good"] =
      ["Error executing query: " ++ "boom",
       format_response ⟨"good", "the answer", [docA, docB]⟩] := by
  have h := query_failure_isolated providerQueryFail llmOk storeTwo "bad" "boom" ["good"]
    (by decide) (by decide)
  exact ⟨h.1, h.2.2.1 "good" ⟨"good", "the answer", [docA, docB]⟩ (by decide) (by decide)⟩

/-- C8: a build-time embedding/vectorstore failure is re-raised out of
`load_and_embed_markdown`, the process prints the failure and exits with
code 1 before serving any query, and the run is entirely independent of
the queries that would have followed (no partial index answers anything). -/
theorem build_failure_aborts_run (fs : Option FSTree) (dir : String)
    (provider : String → Except String (List ℤ))
    (llm : List (Role × String) → Except String String)
    (queries : List String) (e : String)
    (hne : (loadWalk (walkTop fs dir)).1 ≠ [])
    (hb : buildVectorstore (loadWalk (walkTop fs dir)).1 provider = .error e) :
    (load_and_embed_markdown fs dir provider).2 = .error (.vectorstoreError e) ∧
    mainRun fs dir provider llm queries =
      ⟨"Embedding markdown notes..." ::
        ((loadWalk (walkTop fs dir)).2 ++ ["Error creating vectorstore: " ++ e] ++
          ["Failed to embed markdown notes: " ++ e]), 1⟩ ∧
    (mainRun fs dir provider llm queries).exitCode = 1 ∧
    (∀ queries', mainRun fs dir provider llm queries =
      mainRun fs dir provider llm queries') := by
  have hload : load_and_embed_markdown fs dir provider =
      ((loadWalk (walkTop fs dir)).2 ++ ["Error creating vectorstore: " ++ e],
        .error (.vectorstoreError e)) := by
    simp only [load_and_embed_markdown]
    rw [if_neg (by simpa [List.isEmpty_iff] using hne), hb]
  have hmain : mainRun fs dir provider llm queries =
      ⟨"Embedding markdown notes..." ::
        ((loadWalk (walkTop fs dir)).2 ++ ["Error creating vectorstore: " ++ e] ++
          ["Failed to embed markdown notes: " ++ e]), 1⟩ := by
    simp [mainRun, hload, loadErrorMsg]
  refine ⟨by rw [hload], hmain, by rw [hmain], ?_⟩
  intro queries'
  have hmain' : mainRun fs dir provider llm queries' =
      ⟨"Embedding markdown notes..." ::
        ((loadWalk (walkTop fs dir)).2 ++ ["Error creating vectorstore: " ++ e] ++
          ["Failed to embed markdown notes: " ++ e]), 1⟩ := by
    simp [mainRun, hload, loadErrorMsg]
  rw [hmain, hmain']

/-- Witness for C8: with an unreachable embedding provider the run over the
good vault prints the two failure lines, exits 1, and ignores its queries
entirely. -/
theorem build_failure_aborts_run_witness :
    mainRun (some treeGood) "vault" providerDown llmOk ["q1"] =
      ⟨["Embedding markdown notes...",
        "Error creating vectorstore: provider unreachable",
        "Failed to embed markdown notes: provider unreachable"], 1⟩ ∧
    mainRun (some treeGood) "vault" providerDown llmOk ["q1"] =
      mainRun (some treeGood) "vault" providerDown llmOk [] := by
  have h := build_failure_aborts_run (some treeGood) "vault" providerDown llmOk ["q1"]
    "provider unreachable" (by decide) (by decide)
  refine ⟨?_, h.2.2.2 []⟩
  rw [h.2.1]
  decide

theorem scoredFrom_length (qv : List ℤ) (store : List (List ℤ × Document)) (i : Nat) :
    (scoredFrom qv store i).length = store.length := by
  induction store generalizing i with
  | nil => rfl
  | cons p rest ih =>
    obtain ⟨v, d⟩ := p
    simp [scoredFrom, ih]

theorem scoredFrom_map_path (qv : List ℤ) (store : List (List ℤ × Document)) (i : Nat) :
    (scoredFrom qv store i).map (fun s => s.doc.source_path) =
      store.map (fun p => p.2.source_path) := by
  induction store generalizing i with
  | nil => rfl
  | cons p rest ih =>
    obtain ⟨v, d⟩ := p
    simp [scoredFrom, ih]

theorem scoredFrom_mem (qv : List ℤ) (store : List (List ℤ × Document)) (i : Nat)
    (s : Scored) (h : s ∈ scoredFrom qv store i) :
    ∃ j v, store[j]? = some (v, s.doc) ∧ s.idx = i + j ∧ s.score = dot v qv := by
  induction store generalizing i with
  | nil => cases h
  | cons p rest ih =>
    obtain ⟨v, d⟩ := p
    rcases List.mem_cons.mp h with he | hm
    · subst he
      exact ⟨0, v, by simp, by simp, rfl⟩
    · obtain ⟨j, v', h1, h2, h3⟩ := ih (i + 1) hm
      refine ⟨j + 1, v', by simpa using h1, by omega, h3⟩

/-- C1: over any index of n documents and any query vector, retrieval with
parameter k returns exactly min(n, k) entries (hence at most k, never
padding), no duplicate source paths when the indexed documents' paths are
distinct, scores in non-increasing order with ties broken by insertion
position (earlier-indexed first), every ranked entry a genuine index entry
carrying its true similarity score, and the k configured by
`setup_rag_chain` is the default 5. -/
theorem search_topk_spec (store : List (List ℤ × Document)) (qv : List ℤ) (k : Nat)
    (hnd : (store.map fun p => p.2.source_path).Nodup) :
    (similarity_search store qv k).length = min store.length k ∧
    (similarity_search store qv k).length ≤ k ∧
    ((similarity_search store qv k).map fun r => r.1.source_path).Nodup ∧
    List.Sorted (fun a b : ℤ => b ≤ a) ((similarity_search store qv k).map fun r => r.2) ∧
    List.Sorted scoreRel (searchRanked store qv k) ∧
    (∀ s ∈ searchRanked store qv k,
      ∃ v, store[s.idx]? = some (v, s.doc) ∧ s.score = dot v qv) ∧
    similarity_search store qv k = (searchRanked store qv k).map (fun s => (s.doc, s.score)) ∧
    search_kwargs_k = 5 := by
  have hperm := List.perm_insertionSort scoreRel (scoredFrom qv store 0)
  have hlen : (List.insertionSort scoreRel (scoredFrom qv store 0)).length = store.length := by
    rw [hperm.length_eq, scoredFrom_length]
  have hms : similarity_search store qv k =
      (searchRanked store qv k).map (fun s => (s.doc, s.score)) := rfl
  have hlen2 : (similarity_search store qv k).length = min store.length k := by
    rw [hms, List.length_map]
    unfold searchRanked
    rw [List.length_take, hlen, Nat.min_comm]
  have hsorted_full : List.Sorted scoreRel (List.insertionSort scoreRel (scoredFrom qv store 0)) :=
    List.sorted_insertionSort scoreRel (scoredFrom qv store 0)
  have hsorted : List.Sorted scoreRel (searchRanked store qv k) :=
    hsorted_full.sublist (List.take_sublist ..)
  have hpathnd :
      ((List.insertionSort scoreRel (scoredFrom qv store 0)).map
        fun s => s.doc.source_path).Nodup := by
    rw [(hperm.map _).nodup_iff, scoredFrom_map_path]
    exact hnd
  have hnodup : ((similarity_search store qv k).map fun r => r.1.source_path).Nodup := by
    rw [hms, List.map_map]
    have heq : ((searchRanked store qv k).map fun s => s.doc.source_path).Nodup := by
      unfold searchRanked
      rw [List.map_take]
      exact hpathnd.sublist (List.take_sublist ..)
    simpa [Function.comp] using heq
  have hscore : List.Sorted (fun a b : ℤ => b ≤ a)
      ((similarity_search store qv k).map fun r => r.2) := by
    rw [hms, List.map_map]
    have hp : ((searchRanked store qv k).map fun s => s.score).Pairwise
        (fun a b : ℤ => b ≤ a) := by
      refine hsorted.map _ ?_
      intro a b hab
      rcases hab with h | ⟨h, _⟩
      · exact le_of_lt h
      · exact le_of_eq h.symm
    simpa [Function.comp] using hp
  have hmem : ∀ s ∈ searchRanked store qv k,
      ∃ v, store[s.idx]? = some (v, s.doc) ∧ s.score = dot v qv := by
    intro s hs
    have h1 : s ∈ List.insertionSort scoreRel (scoredFrom qv store 0) :=
      List.mem_of_mem_take hs
    have h2 : s ∈ scoredFrom qv store 0 := (List.mem_insertionSort scoreRel).mp h1
    obtain ⟨j, v, hj, hidx, hsc⟩ := scoredFrom_mem qv store 0 s h2
    refine ⟨v, ?_, hsc⟩
    rw [show s.idx = j from by omega]
    exact hj
  exact ⟨hlen2, by rw [hlen2]; exact Nat.min_le_right store.length k,
    hnodup, hscore, hsorted, hmem, hms, rfl⟩

/-- Witness for C1: a two-document index queried with k = 5 returns exactly
its two documents, highest score first, with no padding and no duplicate
paths. -/
theorem search_topk_spec_witness :
    (storeTwo.map fun p => p.2.source_path).Nodup ∧
    (similarity_search storeTwo [1] 5).length = min storeTwo.length 5 ∧
    similarity_search storeTwo [1] 5 = [(docA, 2), (docB, 1)] :=
  ⟨by decide, (search_topk_spec storeTwo [1] 5 (by decide)).1, by decide⟩
